import Mathlib

set_option autoImplicit false

namespace Summer

/- Shallow embedding of the summer TB-model driver scripts
(src/python_source_code/tb_model.py and src/python_source_code/calibration.py).
Python floats are embedded as rationals, Python strings as `String` or as
`List Char` where character-level splitting matters, Python dicts as
association lists, and fallible Python operations as `Option`-valued
functions.  Parts of the engine module `summer_model.py` that are not in the
repository snapshot are modelled from the specification and marked as such. -/

/-- Embeds `convert_competing_proportion_to_rate` (tb_model.py): the returned
lambda computes `proportion * competing_flows / (1.0 - proportion)` with no
guard, so Python raises `ZeroDivisionError` when the divisor is zero; the
error case is embedded as `none`. -/
def convert_competing_proportion_to_rate (competing_flows : ℚ) : ℚ → Option ℚ :=
  fun proportion =>
    if 1 - proportion = 0 then none
    else some (proportion * competing_flows / (1 - proportion))

/-- Embeds `return_function_of_function` (tb_model.py): the generic combinator
returning the chained function `value ↦ outer_function (inner_function value)`. -/
def return_function_of_function {α β γ : Type} (inner_function : α → β)
    (outer_function : β → γ) : α → γ :=
  fun value => outer_function (inner_function value)

/-- A trace of evaluations of a returned closure: the integrator calls the
function once per element of `args`, in the order listed. -/
def evalTrace {α : Type} (f : ℚ → α) (args : List ℚ) : List α :=
  args.map f

/-- Embeds the Python flow dictionaries of tb_model.py: keys "type",
"parameter", "origin" and the optional key "to" (absent for pure deaths). -/
structure FlowRecord where
  ftype : String
  parameter : String
  origin : String
  dest : Option String
  deriving DecidableEq

/-- Embeds `add_standard_latency_flows` (tb_model.py): appends the three
standard latency flows to the existing list. -/
def add_standard_latency_flows (list_of_flows : List FlowRecord) : List FlowRecord :=
  list_of_flows ++
    [⟨"standard_flows", "early_progression", "early_latent", some "infectious"⟩,
     ⟨"standard_flows", "stabilisation", "early_latent", some "late_latent"⟩,
     ⟨"standard_flows", "late_progression", "late_latent", some "infectious"⟩]

/-- Embeds `add_standard_natural_history_flows` (tb_model.py): appends the
recovery flow and the infection-death flow (the latter with no "to" key). -/
def add_standard_natural_history_flows (list_of_flows : List FlowRecord) : List FlowRecord :=
  list_of_flows ++
    [⟨"standard_flows", "recovery", "infectious", some "recovered"⟩,
     ⟨"compartment_death", "infect_death", "infectious", none⟩]

/-- Embeds `add_standard_infection_flows` (tb_model.py): appends the two
frequency-dependent infection flows. -/
def add_standard_infection_flows (list_of_flows : List FlowRecord) : List FlowRecord :=
  list_of_flows ++
    [⟨"infection_frequency", "beta", "susceptible", some "early_latent"⟩,
     ⟨"infection_frequency", "beta", "recovered", some "early_latent"⟩]

/-- The base compartment list of both driver models. -/
def baseCompartments : List String :=
  ["susceptible", "early_latent", "late_latent", "infectious", "recovered"]

/-- The flow list built by the drivers: infection, then latency, then natural
history flows, applied to the empty list. -/
def standardFlowList : List FlowRecord :=
  add_standard_natural_history_flows (add_standard_latency_flows (add_standard_infection_flows []))

/-- Embeds Python `s.split(sep)` for a one-character separator, over strings
as lists of characters; empty segments are kept, as in Python. -/
def splitOnChar (c : Char) : List Char → List (List Char)
  | [] => [[]]
  | x :: xs =>
    let r := splitOnChar c xs
    if x = c then [] :: r else (x :: r.headD []) :: r.tail

/-- A compartment name built per the naming contract: the base label followed,
for each applied stratification in application order, by the delimiter 'X',
the stratification name, an underscore, and the stratum value. -/
def buildCompartmentName (base : List Char) (strats : List (List Char × List Char)) : List Char :=
  base ++ (strats.map (fun sv => 'X' :: (sv.1 ++ '_' :: sv.2))).flatten

/-- Embeds the name parsing in `unpivot_outputs` (tb_model.py): the value put
in column `k` of the melted frame is `row.variable.split("X")[k]` (column 0 is
named "compartment"). -/
def unpivotPart (name : List Char) (k : Nat) : List Char :=
  (splitOnChar 'X' name).getD k []

/-- Embeds the second parsing step in `unpivot_outputs` (tb_model.py): for a
stratification column (k > 0) the stored value is further reduced to
`value.split("_")[1]`. -/
def unpivotStratumValue (name : List Char) (k : Nat) : List Char :=
  (splitOnChar '_' (unpivotPart name k)).getD 1 []

theorem splitOnChar_ne_nil (c : Char) (l : List Char) : splitOnChar c l ≠ [] := by
  cases l with
  | nil => simp [splitOnChar]
  | cons x xs =>
    simp only [splitOnChar]
    split <;> simp

theorem splitOnChar_of_not_mem (c : Char) (l : List Char) (h : c ∉ l) :
    splitOnChar c l = [l] := by
  induction l with
  | nil => rfl
  | cons x xs ih =>
    have hx : x ≠ c := fun hxc => h (hxc ▸ List.mem_cons_self x xs)
    have hxs : c ∉ xs := fun hm => h (List.mem_cons_of_mem x hm)
    simp [splitOnChar, hx, ih hxs]

theorem splitOnChar_append (c : Char) (l r : List Char) (h : c ∉ l) :
    splitOnChar c (l ++ c :: r) = l :: splitOnChar c r := by
  induction l with
  | nil => simp [splitOnChar]
  | cons x xs ih =>
    have hx : x ≠ c := fun hxc => h (hxc ▸ List.mem_cons_self x xs)
    have hxs : c ∉ xs := fun hm => h (List.mem_cons_of_mem x hm)
    simp [splitOnChar, hx, ih hxs]

theorem splitOnChar_buildCompartmentName (base : List Char)
    (strats : List (List Char × List Char))
    (hbase : 'X' ∉ base)
    (hstrats : ∀ sv ∈ strats, 'X' ∉ sv.1 ∧ 'X' ∉ sv.2) :
    splitOnChar 'X' (buildCompartmentName base strats) =
      base :: strats.map (fun sv => sv.1 ++ '_' :: sv.2) := by
  induction strats generalizing base with
  | nil => simp [buildCompartmentName, splitOnChar_of_not_mem _ _ hbase]
  | cons sv rest ih =>
    have hsv := hstrats sv (List.mem_cons_self _ _)
    have hseg : 'X' ∉ sv.1 ++ '_' :: sv.2 := by
      intro hm
      rcases List.mem_append.mp hm with h1 | h2
      · exact hsv.1 h1
      · rcases List.mem_cons.mp h2 with h3 | h4
        · exact absurd h3 (by decide)
        · exact hsv.2 h4
    have hrest : ∀ x ∈ rest, 'X' ∉ x.1 ∧ 'X' ∉ x.2 :=
      fun x hx => hstrats x (List.mem_cons_of_mem _ hx)
    have hname : buildCompartmentName base (sv :: rest) =
        base ++ 'X' :: buildCompartmentName (sv.1 ++ '_' :: sv.2) rest := by
      simp [buildCompartmentName]
    rw [hname, splitOnChar_append _ _ _ hbase, ih _ hseg hrest]
    simp

/-- C1 (counterexample): with a stratum value containing an underscore
("urban_poor"), the consumer recovers only "urban", not the stratum value. -/
theorem unpivot_underscore_counterexample :
    unpivotStratumValue
        (buildCompartmentName ("infectious".toList) [("risk".toList, "urban_poor".toList)]) 1 ≠
      "urban_poor".toList := by
  decide

/-- C1 (amended): when the base label contains no 'X' and every stratification
name and stratum value contains neither 'X' nor '_', the consumer
`unpivot_outputs` recovers the parts positionally: column 0 ("compartment")
equals the base label, and the column of the i-th applied stratification
equals that stratification's stratum value. -/
theorem unpivot_recovers_parts (base : List Char) (strats : List (List Char × List Char))
    (i : Nat)
    (hbase : 'X' ∉ base)
    (hstrats : ∀ sv ∈ strats, ('X' ∉ sv.1 ∧ 'X' ∉ sv.2) ∧ ('_' ∉ sv.1 ∧ '_' ∉ sv.2))
    (hi : i < strats.length) :
    unpivotPart (buildCompartmentName base strats) 0 = base ∧
    unpivotStratumValue (buildCompartmentName base strats) (i + 1) =
      (strats.getD i ([], [])).2 := by
  have hsplit := splitOnChar_buildCompartmentName base strats hbase
    (fun sv hv => (hstrats sv hv).1)
  constructor
  · simp [unpivotPart, hsplit]
  · have hmap : i < (strats.map (fun sv => sv.1 ++ '_' :: sv.2)).length := by
      simpa using hi
    have hgd : (strats.map (fun sv => sv.1 ++ '_' :: sv.2)).getD i [] =
        (strats.getD i ([], [])).1 ++ '_' :: (strats.getD i ([], [])).2 := by
      rw [List.getD_eq_getElem _ _ hmap, List.getD_eq_getElem _ _ hi]
      simp
    have hsv := hstrats (strats.getD i ([], []))
      (by rw [List.getD_eq_getElem _ _ hi]; exact List.getElem_mem _)
    rw [unpivotStratumValue, unpivotPart, hsplit, List.getD_cons_succ, hgd,
      splitOnChar_append _ _ _ hsv.2.1, splitOnChar_of_not_mem _ _ hsv.2.2]
    rfl

/-- C1 witness: a concrete doubly stratified compartment name is recovered. -/
theorem unpivot_recovers_parts_witness :
    unpivotPart (buildCompartmentName ("infectious".toList)
        [("age".toList, "15".toList), ("strain".toList, "mdr".toList)]) 0 =
      "infectious".toList ∧
    unpivotStratumValue (buildCompartmentName ("infectious".toList)
        [("age".toList, "15".toList), ("strain".toList, "mdr".toList)]) 2 =
      (([("age".toList, "15".toList), ("strain".toList, "mdr".toList)].getD 1 ([], []))).2 :=
  unpivot_recovers_parts _ _ 1 (by decide) (by decide) (by decide)

/-- C4: for every pair of functions and every input value, the function
returned by return_function_of_function applied to t equals outer (inner t). -/
theorem return_function_of_function_spec {α β γ : Type} (inner : α → β) (outer : β → γ)
    (t : α) : return_function_of_function inner outer t = outer (inner t) := rfl

/-- C7: the functions returned by return_function_of_function and
convert_competing_proportion_to_rate are stateless: in any trace of
evaluations, each call returns a value depending only on its own argument, so
two evaluations at the same argument agree no matter how many other
evaluations occur between them or in what order arguments are supplied. -/
theorem returned_closures_stateless (inner outer : ℚ → ℚ) (c : ℚ)
    (pre mid post : List ℚ) (t : ℚ) :
    evalTrace (return_function_of_function inner outer) (pre ++ t :: mid ++ t :: post) =
      evalTrace (return_function_of_function inner outer) pre ++
        return_function_of_function inner outer t ::
        (evalTrace (return_function_of_function inner outer) mid ++
          return_function_of_function inner outer t ::
          evalTrace (return_function_of_function inner outer) post) ∧
    evalTrace (convert_competing_proportion_to_rate c) (pre ++ t :: mid ++ t :: post) =
      evalTrace (convert_competing_proportion_to_rate c) pre ++
        convert_competing_proportion_to_rate c t ::
        (evalTrace (convert_competing_proportion_to_rate c) mid ++
          convert_competing_proportion_to_rate c t ::
          evalTrace (convert_competing_proportion_to_rate c) post) := by
  constructor <;> simp [evalTrace]

/-- C8: convert_competing_proportion_to_rate c maps any proportion q ≠ 1 to
q * c / (1 - q), yields a non-negative value whenever 0 ≤ p < 1 and c ≥ 0, and
hits the unguarded division by zero (Python ZeroDivisionError) at proportion 1. -/
theorem convert_competing_proportion_to_rate_spec (c p q : ℚ) (hq : q ≠ 1)
    (h0 : 0 ≤ p) (h1 : p < 1) (hc : 0 ≤ c) :
    convert_competing_proportion_to_rate c q = some (q * c / (1 - q)) ∧
    convert_competing_proportion_to_rate c 1 = none ∧
    ∃ v, convert_competing_proportion_to_rate c p = some v ∧ 0 ≤ v := by
  refine ⟨?_, ?_, ?_⟩
  · have hne : (1 : ℚ) - q ≠ 0 := sub_ne_zero.mpr (fun h => hq h.symm)
    simp [convert_competing_proportion_to_rate, hne]
  · simp [convert_competing_proportion_to_rate]
  · have hpos : (0 : ℚ) < 1 - p := by linarith
    have hne : (1 : ℚ) - p ≠ 0 := ne_of_gt hpos
    refine ⟨p * c / (1 - p), by simp [convert_competing_proportion_to_rate, hne], ?_⟩
    exact div_nonneg (mul_nonneg h0 hc) (le_of_lt hpos)

/-- C8 witness: concrete evaluations at c = 2, p = 1/2, q = 3. -/
theorem convert_competing_proportion_to_rate_spec_witness :
    convert_competing_proportion_to_rate 2 3 = some (3 * 2 / (1 - 3)) ∧
    convert_competing_proportion_to_rate 2 1 = none ∧
    ∃ v, convert_competing_proportion_to_rate 2 (1 / 2) = some v ∧ 0 ≤ v :=
  convert_competing_proportion_to_rate_spec 2 (1 / 2) 3 (by norm_num) (by norm_num)
    (by norm_num) (by norm_num)

/-- C6: every flow in the standard flow list has a type among
infection_frequency, standard_flows and compartment_death, a non-empty
parameter name, an origin in the base compartment list, and a "to" compartment
in that list except the single compartment_death flow, which has none; and
each helper appends its flows after the existing entries, leaving them
unchanged and in order. -/
theorem standard_flows_wellformed :
    (∀ f ∈ standardFlowList,
        f.ftype ∈ (["infection_frequency", "standard_flows", "compartment_death"] : List String) ∧
        f.parameter ≠ "" ∧
        f.origin ∈ baseCompartments ∧
        (∀ t, f.dest = some t → t ∈ baseCompartments) ∧
        (f.dest = none → f.ftype = "compartment_death")) ∧
    standardFlowList.countP (fun f => f.ftype == "compartment_death") = 1 ∧
    standardFlowList.countP (fun f => (f.dest).isNone) = 1 ∧
    (∀ l, add_standard_infection_flows l = l ++ add_standard_infection_flows []) ∧
    (∀ l, add_standard_latency_flows l = l ++ add_standard_latency_flows []) ∧
    (∀ l, add_standard_natural_history_flows l = l ++ add_standard_natural_history_flows []) := by
  refine ⟨by decide, by decide, by decide, ?_, ?_, ?_⟩ <;> intro l <;>
    simp [add_standard_infection_flows, add_standard_latency_flows,
      add_standard_natural_history_flows]

/-- C6 witness: the well-formedness of a concrete flow of the list. -/
theorem standard_flows_wellformed_witness :
    (FlowRecord.mk "infection_frequency" "beta" "susceptible" (some "early_latent")).origin ∈
      baseCompartments :=
  (standard_flows_wellformed.1
    (FlowRecord.mk "infection_frequency" "beta" "susceptible" (some "early_latent"))
    (by decide)).2.2.1


/-- Modelled from the spec: `create_step_function_from_dict` lives in
summer_model.py, which is not in the repository snapshot. Per section 4.3 the
builder returns, for breakpoint-value pairs, the function that maps an input
time to the value of the greatest breakpoint not exceeding that time, and zero
below the smallest breakpoint. `stepLookup` selects that pair. -/
def stepLookup (t : ℚ) : List (ℚ × ℚ) → Option (ℚ × ℚ)
  | [] => none
  | p :: ps =>
    match stepLookup t ps with
    | none => if p.1 ≤ t then some p else none
    | some q => if p.1 ≤ t ∧ q.1 ≤ p.1 then some p else some q

/-- Modelled from the spec: the step function built from breakpoint-value
pairs (left-continuous step interpolation, zero below the first breakpoint). -/
def create_step_function_from_dict (pairs : List (ℚ × ℚ)) : ℚ → ℚ :=
  fun t =>
    match stepLookup t pairs with
    | some p => p.2
    | none => 0

/-- Birth approaches of the engine per spec section 4.4; both driver scripts
pass the string "replace_deaths" to the constructor. -/
inductive BirthApproach
  | replace_deaths
  | add_crude_birth_rate
  | no_birth
  deriving DecidableEq

/-- Modelled from the spec: a flow as seen by the derivative assembly of
summer_model.py (not in the snapshot), with its rate already resolved to a
scalar at the query instant; a pure death flow has no destination. -/
structure ResolvedFlow (n : ℕ) where
  rate : ℚ
  origin : Fin n
  dest : Option (Fin n)

/-- Modelled from the spec: the data the derivative assembly reads at each
step - birth approach, universal death rate, crude birth rate, entry
compartment, and the resolved flows, which may depend on the step index and
on the current populations (as force-of-infection rates do). -/
structure CoreModel (n : ℕ) where
  birth_approach : BirthApproach
  universal_death_rate : ℚ
  crude_birth_rate : ℚ
  entry : Fin n
  resolvedFlows : ℕ → (Fin n → ℚ) → List (ResolvedFlow n)

/-- Contribution of one resolved flow to the derivative of compartment i:
outflows subtract rate times origin population from the origin and add it to
the destination, if any (spec section 4.4). -/
def flowContrib {n : ℕ} (pop : Fin n → ℚ) (f : ResolvedFlow n) (i : Fin n) : ℚ :=
  (if f.dest = some i then f.rate * pop f.origin else 0) -
    (if f.origin = i then f.rate * pop f.origin else 0)

/-- Total population: the sum of all compartment populations. -/
def totalPopulation {n : ℕ} (pop : Fin n → ℚ) : ℚ := ∑ i, pop i

/-- Deaths through death-type flows (those with no destination). -/
def flowDeaths {n : ℕ} (flows : List (ResolvedFlow n)) (pop : Fin n → ℚ) : ℚ :=
  ((flows.filter (fun f => f.dest.isNone)).map (fun f => f.rate * pop f.origin)).sum

/-- Modelled from the spec: births injected into the entry compartment.
With replace_deaths, total deaths across the whole system (flow deaths plus
universal background deaths) are recomputed and injected as an equal inflow. -/
def birthRate {n : ℕ} (M : CoreModel n) (flows : List (ResolvedFlow n))
    (pop : Fin n → ℚ) : ℚ :=
  match M.birth_approach with
  | BirthApproach.replace_deaths =>
      flowDeaths flows pop + M.universal_death_rate * totalPopulation pop
  | BirthApproach.add_crude_birth_rate => M.crude_birth_rate * totalPopulation pop
  | BirthApproach.no_birth => 0

/-- Modelled from the spec: the derivative of compartment i at step k - flow
contributions, universal background deaths, and births into the entry
compartment. -/
def derivative {n : ℕ} (M : CoreModel n) (k : ℕ) (pop : Fin n → ℚ) (i : Fin n) : ℚ :=
  ((M.resolvedFlows k pop).map (fun f => flowContrib pop f i)).sum
    - M.universal_death_rate * pop i
    + (if i = M.entry then birthRate M (M.resolvedFlows k pop) pop else 0)

/-- Modelled from the spec: the integration driver sampled at the requested
grid, embedded as explicit forward steps of sizes hs k from the initial
population vector; trajectory k is the output row at grid index k. -/
def trajectory {n : ℕ} (M : CoreModel n) (pop0 : Fin n → ℚ) (hs : ℕ → ℚ) :
    ℕ → Fin n → ℚ
  | 0 => pop0
  | k + 1 => fun i =>
      trajectory M pop0 hs k i + hs k * derivative M k (trajectory M pop0 hs k) i

/-- Embeds the constructor argument bundle passed to StratifiedModel by both
driver scripts: compartments, initial conditions, parameter map, flow list,
and the birth approach string. -/
structure ModelConstructionArgs where
  compartments : List String
  initial_conditions : List (String × ℚ)
  parameters : List (String × ℚ)
  flows : List FlowRecord
  birth_approach : String

/-- Modelled from the spec: `change_parameter_unit` (summer_model.py, not in
the snapshot) rescales each parameter value by the given factor (used by the
drivers with 365.251 to convert daily rates to yearly ones). -/
def change_parameter_unit (params : List (String × ℚ)) (factor : ℚ) :
    List (String × ℚ) :=
  params.map (fun kv => (kv.1, kv.2 * factor))

/-- Embeds `provide_aggregated_latency_parameters` (tb_model.py). -/
def provide_aggregated_latency_parameters : List (String × ℚ) :=
  [("early_progression", 11 / 10000), ("stabilisation", 1 / 100),
   ("late_progression", 55 / 10000000)]

/-- Embeds the constructor call in `build_working_tb_model` (tb_model.py):
parameters, the flow list built by the three helpers, the five base
compartments, the infectious seed, and birth_approach="replace_deaths". -/
def build_working_tb_model_args (tb_n_contact : ℚ) : ModelConstructionArgs :=
  { compartments := baseCompartments
    initial_conditions := [("infectious", 1 / 1000)]
    parameters :=
      [("beta", tb_n_contact), ("recovery", (4 / 10) / 3),
       ("infect_death", (1 - 4 / 10) / 3), ("universal_death_rate", 1 / 50),
       ("case_detection", 0)] ++
        change_parameter_unit provide_aggregated_latency_parameters (365251 / 1000)
    flows := standardFlowList
    birth_approach := "replace_deaths" }

/-- Embeds the constructor call in `build_model_for_calibration`
(calibration.py), which also passes birth_approach="replace_deaths". -/
def build_model_for_calibration_args : ModelConstructionArgs :=
  { compartments := baseCompartments
    initial_conditions := [("infectious", 1 / 1000)]
    parameters :=
      [("contact_rate", 20), ("recovery", (4 / 10) / 3),
       ("infect_death", (1 - 4 / 10) / 3), ("universal_death_rate", 1 / 50),
       ("case_detection", 0), ("crude_birth_rate", 20 / 1000)] ++
        change_parameter_unit provide_aggregated_latency_parameters (365251 / 1000)
    flows := standardFlowList
    birth_approach := "replace_deaths" }

/-- A concrete two-compartment replace_deaths model used as a witness input. -/
def coreModelExample : CoreModel 2 :=
  { birth_approach := BirthApproach.replace_deaths
    universal_death_rate := 1 / 50
    crude_birth_rate := 0
    entry := 0
    resolvedFlows := fun _ _ => [⟨1 / 5, 0, some 1⟩, ⟨1 / 10, 1, none⟩] }

theorem stepLookup_mem {t : ℚ} {ps : List (ℚ × ℚ)} {q : ℚ × ℚ}
    (h : stepLookup t ps = some q) : q ∈ ps ∧ q.1 ≤ t := by
  induction ps with
  | nil => simp [stepLookup] at h
  | cons p rest ih =>
    cases hr : stepLookup t rest with
    | none =>
      simp only [stepLookup, hr] at h
      by_cases hp : p.1 ≤ t
      · rw [if_pos hp] at h
        injection h with h2
        subst h2
        exact ⟨List.mem_cons_self _ _, hp⟩
      · rw [if_neg hp] at h
        cases h
    | some q0 =>
      simp only [stepLookup, hr] at h
      by_cases hc : p.1 ≤ t ∧ q0.1 ≤ p.1
      · rw [if_pos hc] at h
        injection h with h2
        subst h2
        exact ⟨List.mem_cons_self _ _, hc.1⟩
      · rw [if_neg hc] at h
        injection h with h2
        subst h2
        rcases ih hr with ⟨hm, hle⟩
        exact ⟨List.mem_cons_of_mem _ hm, hle⟩

theorem stepLookup_ge {t : ℚ} {ps : List (ℚ × ℚ)} {p : ℚ × ℚ}
    (hp : p ∈ ps) (hpt : p.1 ≤ t) :
    ∃ q, stepLookup t ps = some q ∧ p.1 ≤ q.1 := by
  induction ps with
  | nil => simp at hp
  | cons p0 rest ih =>
    rcases List.mem_cons.mp hp with h0 | h0
    · subst h0
      cases hr : stepLookup t rest with
      | none =>
        refine ⟨p, ?_, le_refl _⟩
        simp only [stepLookup, hr]
        rw [if_pos hpt]
      | some q0 =>
        by_cases hc : q0.1 ≤ p.1
        · refine ⟨p, ?_, le_refl _⟩
          simp only [stepLookup, hr]
          rw [if_pos ⟨hpt, hc⟩]
        · refine ⟨q0, ?_, le_of_not_le hc⟩
          simp only [stepLookup, hr]
          rw [if_neg (fun hand => hc hand.2)]
    · rcases ih h0 with ⟨q0, hq0, hle⟩
      by_cases hc : p0.1 ≤ t ∧ q0.1 ≤ p0.1
      · refine ⟨p0, ?_, le_trans hle hc.2⟩
        simp only [stepLookup, hq0]
        rw [if_pos hc]
      · refine ⟨q0, ?_, hle⟩
        simp only [stepLookup, hq0]
        rw [if_neg hc]

theorem pairwise_fst_inj {ps : List (ℚ × ℚ)}
    (hdist : ps.Pairwise (fun a b => a.1 ≠ b.1))
    {p q : ℚ × ℚ} (hp : p ∈ ps) (hq : q ∈ ps) (h1 : p.1 = q.1) : p = q := by
  induction ps with
  | nil => simp at hp
  | cons x rest ih =>
    rcases List.pairwise_cons.mp hdist with ⟨hx, hrest⟩
    rcases List.mem_cons.mp hp with hp1 | hp1 <;> rcases List.mem_cons.mp hq with hq1 | hq1
    · rw [hp1, hq1]
    · subst hp1
      exact absurd h1 (hx q hq1)
    · subst hq1
      exact absurd h1.symm (hx p hp1)
    · exact ih hrest hp1 hq1

/-- C5: the step-function builder returns, for any input time, the value of
the greatest breakpoint not exceeding that time (for pairwise-distinct
breakpoints); in particular, built from the pairs (0, a), (5, b), (15, c) it
returns a at t = 3, b at t = 5 and c at t = 20. -/
theorem create_step_function_from_dict_spec (pairs : List (ℚ × ℚ)) (t : ℚ) (p : ℚ × ℚ)
    (hdist : pairs.Pairwise (fun a b => a.1 ≠ b.1))
    (hp : p ∈ pairs) (hpt : p.1 ≤ t)
    (hmax : ∀ q ∈ pairs, q.1 ≤ t → q.1 ≤ p.1) :
    create_step_function_from_dict pairs t = p.2 ∧
    ∀ a b c : ℚ,
      create_step_function_from_dict [(0, a), (5, b), (15, c)] 3 = a ∧
      create_step_function_from_dict [(0, a), (5, b), (15, c)] 5 = b ∧
      create_step_function_from_dict [(0, a), (5, b), (15, c)] 20 = c := by
  constructor
  · rcases stepLookup_ge hp hpt with ⟨q, hq, hle⟩
    rcases stepLookup_mem hq with ⟨hqmem, hqt⟩
    have heq1 : q.1 = p.1 := le_antisymm (hmax q hqmem hqt) hle
    have hqp : q = p := pairwise_fst_inj hdist hqmem hp heq1
    rw [create_step_function_from_dict, hq, hqp]
  · intro a b c
    refine ⟨?_, ?_, ?_⟩ <;> norm_num [create_step_function_from_dict, stepLookup]

/-- C5 witness: the builder applied to concrete pairs at t = 7 returns the
value of breakpoint 5. -/
theorem create_step_function_from_dict_spec_witness :
    create_step_function_from_dict [(0, 10), (5, 20), (15, 30)] 7 = 20 :=
  (create_step_function_from_dict_spec [(0, 10), (5, 20), (15, 30)] 7 (5, 20)
    (by norm_num) (by norm_num) (by norm_num) (by norm_num)).1

theorem sum_flowContrib {n : ℕ} (pop : Fin n → ℚ) (f : ResolvedFlow n) :
    ∑ i, flowContrib pop f i =
      if f.dest.isNone then -(f.rate * pop f.origin) else 0 := by
  have h2 : ∑ i, (if f.origin = i then f.rate * pop f.origin else 0) =
      f.rate * pop f.origin := by
    simp [Finset.sum_ite_eq]
  cases hd : f.dest with
  | none => simp [flowContrib, hd, Finset.sum_sub_distrib, h2]
  | some j =>
    have h1 : ∑ i, (if (some j : Option (Fin n)) = some i
        then f.rate * pop f.origin else 0) = f.rate * pop f.origin := by
      simp [Finset.sum_ite_eq]
    simp [flowContrib, hd, Finset.sum_sub_distrib, h1, h2]

theorem sum_flows_contrib {n : ℕ} (flows : List (ResolvedFlow n)) (pop : Fin n → ℚ) :
    ∑ i, ((flows.map (fun f => flowContrib pop f i)).sum) = -(flowDeaths flows pop) := by
  induction flows with
  | nil => simp [flowDeaths]
  | cons f fs ih =>
    have hsplit : ∀ i : Fin n,
        ((List.map (fun g => flowContrib pop g i) (f :: fs)).sum) =
          flowContrib pop f i + ((fs.map (fun g => flowContrib pop g i)).sum) := by
      intro i
      simp
    rw [Finset.sum_congr rfl (fun i _ => hsplit i), Finset.sum_add_distrib, ih,
      sum_flowContrib]
    by_cases hd : f.dest.isNone
    · simp [flowDeaths, List.filter_cons, hd]
      ring
    · simp [flowDeaths, List.filter_cons, hd]

theorem sum_derivative_replace_deaths {n : ℕ} (M : CoreModel n)
    (h : M.birth_approach = BirthApproach.replace_deaths) (k : ℕ) (pop : Fin n → ℚ) :
    ∑ i, derivative M k pop i = 0 := by
  have hb : ∑ i, (if i = M.entry then birthRate M (M.resolvedFlows k pop) pop else 0) =
      birthRate M (M.resolvedFlows k pop) pop := by
    simp [Finset.sum_ite_eq']
  have hmu : ∑ i, M.universal_death_rate * pop i =
      M.universal_death_rate * totalPopulation pop := by
    rw [totalPopulation, Finset.mul_sum]
  have hexpand : ∑ i, derivative M k pop i =
      (∑ i, ((M.resolvedFlows k pop).map (fun f => flowContrib pop f i)).sum)
        - (∑ i, M.universal_death_rate * pop i)
        + (∑ i, if i = M.entry then birthRate M (M.resolvedFlows k pop) pop else 0) := by
    rw [← Finset.sum_sub_distrib, ← Finset.sum_add_distrib]
    rfl
  rw [hexpand, sum_flows_contrib, hmu, hb, birthRate, h]
  ring

/-- C3: both driver constructors pass birth_approach="replace_deaths", and for
every model running under the replace_deaths birth approach the total
population of every output row of the modelled integrator equals the total
population at time zero (exactly, in rational arithmetic). -/
theorem replace_deaths_conserves_population {n : ℕ} (M : CoreModel n)
    (pop0 : Fin n → ℚ) (hs : ℕ → ℚ) (k : ℕ) (c : ℚ)
    (h : M.birth_approach = BirthApproach.replace_deaths) :
    totalPopulation (trajectory M pop0 hs k) = totalPopulation pop0 ∧
    (build_working_tb_model_args c).birth_approach = "replace_deaths" ∧
    build_model_for_calibration_args.birth_approach = "replace_deaths" := by
  refine ⟨?_, rfl, rfl⟩
  induction k with
  | zero => rfl
  | succ k ih =>
    have hsum := sum_derivative_replace_deaths M h k (trajectory M pop0 hs k)
    have hstep : totalPopulation (trajectory M pop0 hs (k + 1)) =
        totalPopulation (trajectory M pop0 hs k)
          + hs k * ∑ i, derivative M k (trajectory M pop0 hs k) i := by
      rw [totalPopulation, totalPopulation, Finset.mul_sum, ← Finset.sum_add_distrib]
      rfl
    rw [hstep, hsum, ih]
    ring

/-- C3 witness: a concrete two-compartment replace_deaths model conserves its
total population over three steps. -/
theorem replace_deaths_conserves_population_witness :
    totalPopulation (trajectory coreModelExample (fun _ => 1) (fun _ => 1 / 10) 3) =
      totalPopulation (fun _ : Fin 2 => (1 : ℚ)) ∧
    (build_working_tb_model_args 40).birth_approach = "replace_deaths" ∧
    build_model_for_calibration_args.birth_approach = "replace_deaths" :=
  replace_deaths_conserves_population coreModelExample (fun _ => 1) (fun _ => 1 / 10) 3 40 rfl


/-- Embeds the targeted-output dictionaries of calibration.py: keys
"output_key", "years", "values" and the optional key "sd". -/
structure TargetOutput where
  output_key : String
  years : List ℤ
  values : List ℚ
  sd : Option ℚ
  deriving DecidableEq

/-- Embeds numpy.mean over the embedded rationals. -/
def npMean (xs : List ℚ) : ℚ := xs.sum / xs.length

/-- Embeds `Calibration.workout_unspecified_sds` (calibration.py): every
targeted output lacking the "sd" key gets sd = 0.5 / 4 times the mean of its
values; targets that already carry an "sd" key are left as they are. -/
def workout_unspecified_sds (targets : List TargetOutput) : List TargetOutput :=
  targets.map (fun t =>
    if t.sd = none then { t with sd := some (1 / 2 / 4 * npMean t.values) } else t)

/-- The first targeted output of the calibration driver (values 0.005, 0.004
embedded as rationals), with its "sd" key removed. -/
def targetExampleA : TargetOutput :=
  ⟨"prevXinfectiousXamongXage_15", [2015, 2016], [1 / 200, 1 / 250], none⟩

/-- The second targeted output of the calibration driver (value 0.096,
sd 0.012 embedded as rationals). -/
def targetExampleB : TargetOutput :=
  ⟨"prevXlatentXamongXage_5", [2014], [12 / 125], some (3 / 250)⟩

/-- C10: workout_unspecified_sds sets sd to (0.5/4) times the mean of values
for exactly those targets lacking an sd key, and leaves every target that has
an sd key, and every other field of every target, unchanged. -/
theorem workout_unspecified_sds_spec (ts : List TargetOutput) (i : ℕ)
    (d : TargetOutput) (hi : i < ts.length) :
    (workout_unspecified_sds ts).length = ts.length ∧
    ((ts.getD i d).sd = none →
      (workout_unspecified_sds ts).getD i d =
        { ts.getD i d with sd := some (1 / 2 / 4 * npMean (ts.getD i d).values) }) ∧
    (∀ s, (ts.getD i d).sd = some s →
      (workout_unspecified_sds ts).getD i d = ts.getD i d) := by
  have hlen : (workout_unspecified_sds ts).length = ts.length := by
    simp [workout_unspecified_sds]
  have hmap : i < (workout_unspecified_sds ts).length := by
    rw [hlen]
    exact hi
  have hget : (workout_unspecified_sds ts).getD i d =
      (if (ts.getD i d).sd = none
        then { ts.getD i d with sd := some (1 / 2 / 4 * npMean (ts.getD i d).values) }
        else ts.getD i d) := by
    rw [List.getD_eq_getElem?_getD, List.getElem?_eq_getElem hmap,
      List.getD_eq_getElem?_getD, List.getElem?_eq_getElem hi]
    simp [workout_unspecified_sds]
  refine ⟨hlen, ?_, ?_⟩
  · intro hnone
    rw [hget, if_pos hnone]
  · intro sd0 hs
    rw [hget, if_neg (by rw [hs]; simp)]

/-- C10 witness: the driver's first target (no sd key) gets the computed sd. -/
theorem workout_unspecified_sds_spec_witness :
    (workout_unspecified_sds [targetExampleA, targetExampleB]).getD 0 targetExampleB =
      { [targetExampleA, targetExampleB].getD 0 targetExampleB with
          sd := some (1 / 2 / 4 *
            npMean (([targetExampleA, targetExampleB].getD 0 targetExampleB)).values) } :=
  (workout_unspecified_sds_spec [targetExampleA, targetExampleB] 0 targetExampleB
    (by norm_num)).2.1 rfl

/-- Outcome of a call to `Calibration.run_fitting_algorithm`: normal
completion, recording whether mle_estimates and mcmc_trace were updated, or a
Python exception. -/
inductive FitOutcome
  | ok (mle_updated : Bool) (trace_updated : Bool)
  | raised (error : String)
  deriving DecidableEq

/-- Embeds the dispatch at the end of `Calibration.run_fitting_algorithm`
(calibration.py). In both else branches the ValueError is only constructed,
never raised. In the mcmc branch with an unknown method, execution then
reaches `pm.sample(..., step=mcmc_step, ...)` with the local `mcmc_step`
never assigned, which raises UnboundLocalError; that local is embedded as an
Option that stays none on this path. The pm.Model prior setup and the pm
sampling calls themselves are modelled as succeeding. -/
def run_fitting_algorithm (run_mode mcmc_method : String) : FitOutcome :=
  if run_mode = "mle" then FitOutcome.ok true false
  else if run_mode = "mcmc" then
    let mcmc_step : Option String :=
      if mcmc_method = "Metropolis" then some "Metropolis"
      else if mcmc_method = "DEMetropolis" then some "DEMetropolis"
      else none
    match mcmc_step with
    | some _ => FitOutcome.ok false true
    | none => FitOutcome.raised "UnboundLocalError: mcmc_step"
  else FitOutcome.ok false false

/-- C9 (counterexample): run_mode "mcmc" with an unsupported mcmc_method does
not complete without error - the unraised ValueError leaves mcmc_step
unassigned and the following pm.sample call raises UnboundLocalError. -/
theorem run_fitting_algorithm_counterexample :
    run_fitting_algorithm "mcmc" "Hamiltonian" =
      FitOutcome.raised "UnboundLocalError: mcmc_step" := by
  decide

/-- C9 (amended): a run_mode other than "mle" and "mcmc" completes without
raising and updates neither mle_estimates nor mcmc_trace (the ValueError is
constructed but never raised); run_mode "mcmc" with an mcmc_method other than
"Metropolis" and "DEMetropolis" also never raises the constructed ValueError
and updates neither attribute, but raises UnboundLocalError when pm.sample
references the unassigned local mcmc_step. -/
theorem run_fitting_algorithm_spec (run_mode mcmc_method : String)
    (h1 : run_mode ≠ "mle") (h2 : run_mode ≠ "mcmc")
    (h3 : mcmc_method ≠ "Metropolis") (h4 : mcmc_method ≠ "DEMetropolis") :
    run_fitting_algorithm run_mode mcmc_method = FitOutcome.ok false false ∧
    run_fitting_algorithm "mcmc" mcmc_method =
      FitOutcome.raised "UnboundLocalError: mcmc_step" := by
  constructor
  · simp [run_fitting_algorithm, h1, h2]
  · simp [run_fitting_algorithm, h3, h4]

/-- C9 witness: concrete unsupported run mode and mcmc method. -/
theorem run_fitting_algorithm_spec_witness :
    run_fitting_algorithm "optimize" "Slice" = FitOutcome.ok false false ∧
    run_fitting_algorithm "mcmc" "Slice" =
      FitOutcome.raised "UnboundLocalError: mcmc_step" :=
  run_fitting_algorithm_spec "optimize" "Slice" (by decide) (by decide) (by decide)
    (by decide)

/-- Embeds the StratifiedModel objects the calibration class handles:
compartment names, transition flows, parameter map, time-variant map,
integration times, initial populations, the birth approach, and the outputs
matrix produced by run_model. -/
structure PyModel where
  compartment_names : List String
  flows : List FlowRecord
  parameters : List (String × ℚ)
  time_variants : List (String × (ℚ → ℚ))
  times : List ℚ
  initial_pop : List ℚ
  birth_approach : String
  outputs : Option (List (List ℚ))

instance : Inhabited PyModel :=
  ⟨⟨[], [], [], [], [], [], "", none⟩⟩

/-- Python dict assignment d[k] = v: overwrite the binding if the key is
present, otherwise append a new one. -/
def dictSet (d : List (String × ℚ)) (k : String) (v : ℚ) : List (String × ℚ) :=
  if d.any (fun kv => kv.1 == k) then
    d.map (fun kv => if kv.1 == k then (k, v) else kv)
  else d ++ [(k, v)]

/-- Looks a parameter name up in the time-variant map. -/
def lookupTimeVariant (tv : List (String × (ℚ → ℚ))) (p : String) : Option (ℚ → ℚ) :=
  match tv with
  | [] => none
  | kv :: rest => if kv.1 == p then some kv.2 else lookupTimeVariant rest p

/-- Modelled from the spec: rate resolution (spec 4.4, summer_model.py not in
the snapshot) - a parameter resolves to a time-variant function evaluated at
the query time, or to a constant lookup in the parameter map. -/
def pyResolve (m : PyModel) (t : ℚ) (p : String) : ℚ :=
  match lookupTimeVariant m.time_variants p with
  | some f => f t
  | none => (m.parameters.lookup p).getD 0

/-- Modelled from the spec: the per-compartment derivative (spec 4.4) over the
string-indexed model - inflows and outflows per transition flow, universal
background deaths, and replace_deaths births injected into the first (entry)
compartment. -/
def pyDeriv (m : PyModel) (t : ℚ) (pop : List ℚ) : List ℚ :=
  let popOf := fun name => pop.getD (m.compartment_names.indexOf name) 0
  let flowRate := fun (f : FlowRecord) => pyResolve m t f.parameter * popOf f.origin
  let deaths := ((m.flows.filter (fun f => f.dest.isNone)).map flowRate).sum
  let mu := pyResolve m t "universal_death_rate"
  let birthsTotal :=
    if m.birth_approach == "replace_deaths" then deaths + mu * pop.sum else 0
  (List.range m.compartment_names.length).map (fun i =>
    let name := m.compartment_names.getD i ""
    ((m.flows.filter (fun f => f.dest == some name)).map flowRate).sum
      - ((m.flows.filter (fun f => f.origin == name)).map flowRate).sum
      - mu * pop.getD i 0
      + (if i = 0 then birthsTotal else 0))

/-- Modelled from the spec: the integrated rows sampled at the grid times,
embedded as forward steps between consecutive grid points. -/
def pyTrajectory (m : PyModel) : List ℚ → List ℚ → List (List ℚ)
  | _, [] => []
  | pop, [_] => [pop]
  | pop, t1 :: t2 :: ts =>
      pop :: pyTrajectory m
        (List.zipWith (fun p dp => p + (t2 - t1) * dp) pop (pyDeriv m t1 pop)) (t2 :: ts)

/-- Modelled from the spec: `StratifiedModel.run_model` is not in the
snapshot; per the spec's Lifecycle section the integration driver reads the
structural model, never mutates it, and produces the outputs matrix once per
run. -/
def run_model (m : PyModel) : PyModel :=
  { m with outputs := some (pyTrajectory m m.initial_pop m.times) }

/-- Embeds a prior dictionary of calibration.py: keys "param_name",
"distribution" and "distri_params". -/
structure Prior where
  param_name : String
  distribution : String
  distri_params : List ℚ

/-- The state of a Calibration object, with Python object identity made
explicit: models live on a heap of PyModel values, and base_model and
running_model are references (heap indices), so the deep copy performed by
run_model_with_params and the in-place parameter writes are observable. -/
structure CalState where
  heap : List PyModel
  base_ref : ℕ
  running_ref : Option ℕ
  priors : List Prior
  param_list : List String
  model_builder : ℚ → PyModel
  post_processing : Option ℕ

/-- Mutates the heap cell at index r in place. -/
def heapModify (h : List PyModel) (r : ℕ) (f : PyModel → PyModel) : List PyModel :=
  h.set r (f (h.getD r default))

/-- Writing one prior's override into a model's parameter map. -/
def writeParam (pv : ℚ × Prior) (m : PyModel) : PyModel :=
  { m with parameters := dictSet m.parameters pv.2.param_name pv.1 }

/-- The parameter-override loop of run_model_with_params as a pure function
on one model value: each non-start_time prior's parameter is written, in
order. -/
def applyOverrides (m : PyModel) (priors : List Prior) (params : List ℚ) : PyModel :=
  (params.zip priors).foldl
    (fun acc pv => if pv.2.param_name ≠ "start_time" then writeParam pv acc else acc) m

/-- Embeds `Calibration.run_model_with_params` (calibration.py): when
"start_time" is among the prior names the model is rebuilt by model_builder,
otherwise running_model becomes a deep copy of base_model - a fresh heap
cell; the parameter overrides are then written one by one into the running
model's parameter map, the running model is run, and post-processing points
at it. -/
def run_model_with_params (s : CalState) (params : List ℚ) : CalState :=
  let fresh :=
    if "start_time" ∈ s.param_list then
      s.model_builder (params.getD (s.param_list.indexOf "start_time") 0)
    else
      s.heap.getD s.base_ref default
  let rref := s.heap.length
  let heap1 := s.heap ++ [fresh]
  let heap2 := (params.zip s.priors).foldl
    (fun h pv =>
      if pv.2.param_name ≠ "start_time" then heapModify h rref (writeParam pv) else h)
    heap1
  let heap3 := heapModify heap2 rref run_model
  { s with heap := heap3, running_ref := some rref, post_processing := some rref }

theorem heapModify_id (h : List PyModel) (r : ℕ) (hr : r < h.length) :
    heapModify h r (fun m => m) = h := by
  unfold heapModify
  refine List.ext_getElem? (fun i => ?_)
  by_cases hir : r = i
  · subst hir
    rw [List.getElem?_set_self hr, List.getD_eq_getElem?_getD,
      List.getElem?_eq_getElem hr]
    rfl
  · exact List.getElem?_set_ne hir

theorem heapModify_heapModify (h : List PyModel) (r : ℕ) (hr : r < h.length)
    (f g : PyModel → PyModel) :
    heapModify (heapModify h r f) r g = heapModify h r (fun m => g (f m)) := by
  unfold heapModify
  have hy : (h.set r (f (h.getD r default))).getD r default = f (h.getD r default) := by
    rw [List.getD_eq_getElem?_getD, List.getElem?_set_self hr]
    rfl
  rw [hy, List.set_set]

theorem heapModify_get?_ne (h : List PyModel) (r j : ℕ) (hj : j ≠ r)
    (f : PyModel → PyModel) : (heapModify h r f)[j]? = h[j]? := by
  unfold heapModify
  exact List.getElem?_set_ne (fun he => hj he.symm)

theorem foldl_heapModify (l : List (ℚ × Prior)) (h : List PyModel) (r : ℕ)
    (hr : r < h.length) :
    l.foldl (fun hh pv =>
        if pv.2.param_name ≠ "start_time" then heapModify hh r (writeParam pv) else hh) h =
      heapModify h r (fun m => l.foldl (fun acc pv =>
        if pv.2.param_name ≠ "start_time" then writeParam pv acc else acc) m) := by
  induction l generalizing h with
  | nil =>
    simp only [List.foldl_nil]
    exact (heapModify_id h r hr).symm
  | cons pv l ih =>
    simp only [List.foldl_cons]
    by_cases hc : pv.2.param_name ≠ "start_time"
    · simp only [if_pos hc]
      rw [ih _ (by simp [heapModify, hr]), heapModify_heapModify h r hr]
    · simp only [if_neg hc]
      exact ih h hr

/-- C2: when "start_time" is not among the prior names, run_model_with_params
leaves every pre-existing heap cell - in particular base_model, with its
compartment names, flow list, parameter map and time-variant map - unchanged;
running_model is a fresh cell holding the deep copy of base_model with
exactly the supplied parameter overrides written into its parameter map,
then run. -/
theorem run_model_with_params_frame (s : CalState) (params : List ℚ)
    (h1 : "start_time" ∉ s.param_list) :
    (∀ j, j < s.heap.length →
      ((run_model_with_params s params).heap)[j]? = s.heap[j]?) ∧
    (run_model_with_params s params).running_ref = some s.heap.length ∧
    ((run_model_with_params s params).heap)[s.heap.length]? =
      some (run_model (applyOverrides (s.heap.getD s.base_ref default) s.priors params)) := by
  have hlen1 : s.heap.length < (s.heap ++ [s.heap.getD s.base_ref default]).length := by
    simp
  have hheap : (run_model_with_params s params).heap =
      heapModify (s.heap ++ [s.heap.getD s.base_ref default]) s.heap.length
        (fun m => run_model (applyOverrides m s.priors params)) := by
    simp only [run_model_with_params, if_neg h1]
    rw [foldl_heapModify _ _ _ hlen1, heapModify_heapModify _ _ hlen1]
    rfl
  refine ⟨?_, ?_, ?_⟩
  · intro j hj
    rw [hheap, heapModify_get?_ne _ _ _ (Nat.ne_of_lt hj),
      List.getElem?_append_left hj]
  · simp only [run_model_with_params]
  · rw [hheap]
    unfold heapModify
    rw [List.getElem?_set_self hlen1]
    have hfresh : (s.heap ++ [s.heap.getD s.base_ref default]).getD s.heap.length default =
        s.heap.getD s.base_ref default := by
      rw [List.getD_eq_getElem?_getD, List.getElem?_concat_length]
      rfl
    rw [hfresh]

/-- A concrete model value used as the calibration witness input. -/
def pyModelExample : PyModel :=
  { compartment_names := baseCompartments
    flows := standardFlowList
    parameters := [("contact_rate", 20), ("recovery", 2 / 15)]
    time_variants := []
    times := [0, 1]
    initial_pop := [1, 0, 0, 1 / 1000, 0]
    birth_approach := "replace_deaths"
    outputs := none }

/-- A concrete calibration state over a one-cell heap. -/
def calStateExample : CalState :=
  { heap := [pyModelExample]
    base_ref := 0
    running_ref := none
    priors := [⟨"contact_rate", "uniform", [2, 100]⟩]
    param_list := ["contact_rate"]
    model_builder := fun _ => pyModelExample
    post_processing := none }

/-- C2 witness: a concrete run leaves the base cell untouched and points
running_model at the fresh cell. -/
theorem run_model_with_params_frame_witness :
    ((run_model_with_params calStateExample [25]).heap)[0]? = calStateExample.heap[0]? ∧
    (run_model_with_params calStateExample [25]).running_ref = some 1 :=
  ⟨(run_model_with_params_frame calStateExample [25] (by simp [calStateExample])).1 0
    (by simp [calStateExample]),
   (run_model_with_params_frame calStateExample [25] (by simp [calStateExample])).2.1⟩

end Summer
